import Mathlib

/-!
# Verification of the gomini loop-detection and session-bounding engine

Shallow embedding of the loop-detection service (`pkg/core`, file embedded from
`src/unnamed/part_001`) and the stream session controller
(`pkg/core/client.go`, `SendMessageStream`) of the gomini repository,
together with proofs about the claims of the specification.

Modelling conventions:
* Go strings are sequences of bytes; the rolling content buffer is modelled as
  `List Char` where each `Char` stands for one byte (all inputs of interest are
  ASCII).  Go `len`, slicing and concatenation become `List.length`,
  `drop/take` and `++`.
* The SHA-256 digests (`getToolCallKey`, `hashChunk`) are used by the code only
  as comparison keys, with an explicit collision re-verification
  (`isActualContentMatch`) kept in the embedding.  A digest is therefore
  modelled as the hashed text itself (an injective fingerprint); equality of
  modelled keys coincides with equality of the hashed pre-images, which is
  equality of digests in the absence of SHA-256 collisions.
* `map[string][]int` (`contentStats`) is modelled as a total function
  `List Char → List Nat`; a key being absent from the Go map corresponds to the
  function returning `[]` (the code never stores an empty slice: entries are
  created non-empty, appended to, or deleted when they become empty).
* `json.Marshal(toolCall.Arguments)` is abstracted by the field
  `ToolCallEvent.arguments : Option String`: `some s` is the canonical (Go maps
  marshal with sorted keys) JSON serialization, `none` models an argument map
  that `json.Marshal` rejects.  The Go code ignores the error
  (`argsBytes, _ := json.Marshal(...)`), in which case the returned byte slice
  is `nil`, i.e. the empty string — modelled by `Option.getD "" `.
* Go `int` counters that can interact with configured values are modelled as
  `Int`; indices into the content buffer, which are always non-negative, as
  `Nat` (the Go `adjustedIndex >= 0` test on `int` becomes the `Nat` test
  `t ≤ j`, and `max(0, a-b)` becomes truncated subtraction).
* The float64 comparison `averageDistance <= maxAllowedDistance`, i.e.
  `float64(total)/9.0 <= 75.0`, is exact at these magnitudes (75.0 and
  675.0/9.0 are exactly representable) and is embedded as the equivalent
  integer comparison `total ≤ 75 * 9`; the claim-level theorem re-states it as
  the rational inequality `total / 9 ≤ 75`.
-/

namespace Gomini

/-! ## Constants (`loop_detection.go`) -/

def TOOL_CALL_LOOP_THRESHOLD : Nat := 5
def CONTENT_LOOP_THRESHOLD : Nat := 10
def CONTENT_CHUNK_SIZE : Nat := 50
def MAX_HISTORY_LENGTH : Nat := 1000

/-! ## Structural-content classification (the Go regexes in `checkContentLoop`)

Each Go regular expression (RE2, no multiline flag) is embedded as an
executable Boolean matcher over the fragment's characters.  `(^|\n)` anchors a
match at the start of the text or directly after a newline; `\s` is RE2's
`[\t\n\f\r ]`; `.` matches any character except `\n`; `^...$` without the `m`
flag anchors at the start and end of the whole text. -/

/-- The backquote character, written via its code point. -/
def backq : Char := Char.ofNat 96

/-- Go `strings.Count(content, "```")`: number of non-overlapping occurrences
of three consecutive backquotes, scanning left to right. -/
def countFences : List Char → Nat
  | b1 :: b2 :: b3 :: rest =>
    if b1 = backq ∧ b2 = backq ∧ b3 = backq then countFences rest + 1
    else countFences (b2 :: b3 :: rest)
  | _ => 0

/-- RE2 `\s`: one of tab, newline, form feed, carriage return, space. -/
def wsChar (c : Char) : Bool :=
  c = ' ' || c = '\t' || c = '\n' || c = '\x0c' || c = '\r'

/-- Character at position `i`, if in bounds. -/
def charAt (s : List Char) (i : Nat) : Option Char := s.get? i

/-- Is there a whitespace (`\s`) character at position `i`? -/
def wsAt (s : List Char) (i : Nat) : Bool :=
  match charAt s i with
  | some c => wsChar c
  | none => false

/-- The anchor `(^|\n)`: position `p` is the start of the text or is preceded
by a newline. -/
def anchorAt (s : List Char) (p : Nat) : Bool :=
  p = 0 || charAt s (p - 1) == some '\n'

/-- Every character in `[p, q)` is `\s` whitespace (and exists). -/
def wsRun (s : List Char) (p q : Nat) : Bool :=
  (List.range (q - p)).all fun i => wsAt s (p + i)

/-- Position `q` is reachable by `(^|\n)\s*`: some anchored position `p ≤ q`
is followed by whitespace only, up to `q`. -/
def afterAnchorWs (s : List Char) (q : Nat) : Bool :=
  (List.range (q + 1)).any fun p => anchorAt s p && wsRun s p q

/-- `\|.*\|` at position `q`: a `|` here and another `|` later with no
intervening newline (`.` does not match `\n`). -/
def pipeRowAt (s : List Char) (q : Nat) : Bool :=
  charAt s q == some '|' &&
    ((List.range s.length).any fun r =>
      decide (q < r) && charAt s r == some '|' &&
        ((List.range (r - q - 1)).all fun i => !(charAt s (q + 1 + i) == some '\n')))

/-- `[|+-]{3,}` at position `q`: three consecutive characters from
`{'|', '+', '-'}` (three suffice for a match of "three or more"). -/
def tableRuleAt (s : List Char) (q : Nat) : Bool :=
  [q, q + 1, q + 2].all fun i =>
    match charAt s i with
    | some c => c = '|' || c = '+' || c = '-'
    | none => false

/-- Go `regexp.MustCompile("(^|\n)\\s*(\\|.*\\||[|+-]{3,})").MatchString`. -/
def hasTableB (s : List Char) : Bool :=
  (List.range (s.length + 1)).any fun q =>
    afterAnchorWs s q && (pipeRowAt s q || tableRuleAt s q)

/-- `[*-+]\s` at position `q`.  In RE2 `[*-+]` is the two-character range
from `'*'` (42) to `'+'` (43); the literal `-` bullet is *not* matched. -/
def bulletAt (s : List Char) (q : Nat) : Bool :=
  (match charAt s q with
   | some c => c = '*' || c = '+'
   | none => false) && wsAt s (q + 1)

/-- `\d+\.\s` at position `q`: one or more digits, a dot, then whitespace. -/
def numberItemAt (s : List Char) (q : Nat) : Bool :=
  (List.range (s.length + 1)).any fun r =>
    decide (q < r) &&
      ((List.range (r - q)).all fun i =>
        match charAt s (q + i) with
        | some c => c.isDigit
        | none => false) &&
      charAt s r == some '.' && wsAt s (r + 1)

/-- The disjunction of the two Go list-item regexes
`(^|\n)\s*[*-+]\s` and `(^|\n)\s*\d+\.\s`. -/
def hasListItemB (s : List Char) : Bool :=
  (List.range (s.length + 1)).any fun q =>
    afterAnchorWs s q && (bulletAt s q || numberItemAt s q)

/-- Go `regexp.MustCompile("(^|\n)#+\\s").MatchString`: anchored run of one or
more `#`, then whitespace. -/
def hasHeadingB (s : List Char) : Bool :=
  (List.range (s.length + 1)).any fun p =>
    anchorAt s p &&
      ((List.range (s.length + 1)).any fun r =>
        decide (p < r) &&
          ((List.range (r - p)).all fun i => charAt s (p + i) == some '#') &&
          wsAt s r)

/-- Go `regexp.MustCompile("(^|\n)>\\s").MatchString`. -/
def hasBlockquoteB (s : List Char) : Bool :=
  (List.range (s.length + 1)).any fun p =>
    anchorAt s p && charAt s p == some '>' && wsAt s (p + 1)

/-- Go `regexp.MustCompile("^[+\\-_=*]+$").MatchString`: the whole fragment is
non-empty and consists solely of the characters `+ - _ = *`. -/
def isDividerB (s : List Char) : Bool :=
  !s.isEmpty && s.all fun c => c = '+' || c = '-' || c = '_' || c = '=' || c = '*'

/-! ## Event data model (`pkg/gomini/events.go`)

Only the fields the embedded control flow reads are kept: the event `Type`
tag, and the `Data` payload variants inspected by `AddAndCheck` and emitted by
`SendMessageStream`.  Carrier fields the code never reads (provider, model,
timestamps, request id, metadata, the `Delta`/`Complete` flags of
`ContentEvent`, `Reasoning`/`Confidence` of `ToolCallEvent`) are omitted. -/

inductive EventType where
  | content
  | toolCall
  | finished
  | error
  | loopDetected
  | maxSessionT
  | other
  deriving DecidableEq, Repr

inductive LoopType where
  | toolCall
  | content
  | llmDetected
  deriving DecidableEq, Repr

/-- `gomini.ToolCallEvent`.  `arguments` is the canonical JSON serialization
of the Go argument map (`some s`), or `none` when
`json.Marshal` fails on it. -/
structure ToolCallEvent where
  callID : String
  toolName : String
  arguments : Option String
  deriving DecidableEq, Repr

/-- `gomini.ContentEvent`, reduced to the `Text` field (as bytes). -/
structure ContentEvent where
  text : List Char
  deriving DecidableEq, Repr

inductive EventData where
  | content (c : ContentEvent)
  | toolCall (tc : ToolCallEvent)
  | loopDetected (lt : LoopType) (promptID : String) (description : String)
      (turnCount : Int)
  | maxSessionT (currentTurns : Int) (maxTurns : Int) (promptID : String)
  | none
  deriving DecidableEq, Repr

/-- `gomini.StreamEvent`: the `Type` tag and the `Data` payload (a Go
`interface` value, so tag and payload can in principle disagree, exactly as
in the source, where `AddAndCheck` type-asserts the payload). -/
structure StreamEvent where
  etype : EventType
  data : EventData
  deriving DecidableEq, Repr

/-- `gomini.NewMaxSessionTurnsEvent` (provider/model/timestamp dropped). -/
def newMaxSessionTurnsEvent (currentTurns maxTurns : Int) (promptID : String) :
    StreamEvent :=
  { etype := .maxSessionT, data := .maxSessionT currentTurns maxTurns promptID }

/-- `gomini.NewLoopDetectedEvent` (provider/model/timestamp/repeatCount
dropped; `repeatCount` is always passed as 0 by the client). -/
def newLoopDetectedEvent (lt : LoopType) (promptID description : String)
    (turnCount : Int) : StreamEvent :=
  { etype := .loopDetected, data := .loopDetected lt promptID description turnCount }

/-! ## The loop-detection service state (`LoopDetectionService`)

The mutex, the `*gomini.Config` pointer (only `Debug` is read, to print), and
the write-only future-use fields `llmCheckInterval`/`lastCheckTurn` are not
part of the functional state. -/

structure LoopDetectionService where
  promptID : String
  lastToolCallKey : String
  toolCallRepetitionCount : Nat
  streamContentHistory : List Char
  contentStats : List Char → List Nat
  lastContentIndex : Nat
  loopDetected : Bool
  inCodeBlock : Bool
  turnsInCurrentPrompt : Nat

/-- `NewLoopDetectionService`: Go zero values for every tracked field. -/
def newLoopDetectionService : LoopDetectionService where
  promptID := ""
  lastToolCallKey := ""
  toolCallRepetitionCount := 0
  streamContentHistory := []
  contentStats := fun _ => []
  lastContentIndex := 0
  loopDetected := false
  inCodeBlock := false
  turnsInCurrentPrompt := 0

/-- `resetToolCallCount`. -/
def resetToolCallCount (l : LoopDetectionService) : LoopDetectionService :=
  { l with lastToolCallKey := "", toolCallRepetitionCount := 0 }

/-- `resetContentTracking`. -/
def resetContentTracking (l : LoopDetectionService) (resetHistory : Bool) :
    LoopDetectionService :=
  { l with
    streamContentHistory := if resetHistory then [] else l.streamContentHistory
    contentStats := fun _ => []
    lastContentIndex := 0 }

/-- `resetLLMCheckTracking` (restricted to the tracked field). -/
def resetLLMCheckTracking (l : LoopDetectionService) : LoopDetectionService :=
  { l with turnsInCurrentPrompt := 0 }

/-- `Reset`.  Note that the source does not touch `inCodeBlock` here. -/
def Reset (l : LoopDetectionService) (promptID : String) : LoopDetectionService :=
  { (resetLLMCheckTracking (resetContentTracking (resetToolCallCount l) true)) with
    promptID := promptID
    loopDetected := false }

/-- `TurnStarted`: increments the turn counter and always reports "no loop"
(the LLM-based check is an unimplemented extension point). -/
def TurnStarted (l : LoopDetectionService) : Bool × LoopDetectionService :=
  (false, { l with turnsInCurrentPrompt := l.turnsInCurrentPrompt + 1 })

/-- `IsLoopDetected`. -/
def IsLoopDetected (l : LoopDetectionService) : Bool := l.loopDetected

/-! ## Tool-call repetition tracking -/

/-- `getToolCallKey`: the key string `fmt.Sprintf("%s:%s", name, argsBytes)`
where `argsBytes, _ := json.Marshal(arguments)` is the canonical serialization
or `nil` (empty) when marshalling fails.  The SHA-256 of the key string is
modelled by the key string itself (see the header). -/
def getToolCallKey (tc : ToolCallEvent) : String :=
  tc.toolName ++ ":" ++ tc.arguments.getD ""

/-- `checkToolCallLoop`. -/
def checkToolCallLoop (l : LoopDetectionService) (tc : ToolCallEvent) :
    Bool × LoopDetectionService :=
  let key := getToolCallKey tc
  let l' :=
    if l.lastToolCallKey = key then
      { l with toolCallRepetitionCount := l.toolCallRepetitionCount + 1 }
    else
      { l with lastToolCallKey := key, toolCallRepetitionCount := 1 }
  (decide (l'.toolCallRepetitionCount ≥ TOOL_CALL_LOOP_THRESHOLD), l')

/-! ## Content repetition tracking -/

/-- `hashChunk`: SHA-256 modelled as an injective fingerprint (the chunk
itself); the collision re-verification below is retained unchanged. -/
def hashChunk (chunk : List Char) : List Char := chunk

/-- `isActualContentMatch`: re-verify a digest match against the buffer text
at the first recorded occurrence. -/
def isActualContentMatch (l : LoopDetectionService) (currentChunk : List Char)
    (originalIndex : Nat) : Bool :=
  if originalIndex + CONTENT_CHUNK_SIZE > l.streamContentHistory.length then false
  else
    decide ((l.streamContentHistory.drop originalIndex).take CONTENT_CHUNK_SIZE
      = currentChunk)

/-- Point update of the fingerprint index (a Go map store). -/
def statsInsert (m : List Char → List Nat) (k : List Char) (v : List Nat) :
    List Char → List Nat :=
  fun h => if h = k then v else m h

/-- `isLoopDetectedForChunk`.  The float64 comparison
`float64(total) / float64(9) <= 1.5 * 50` is embedded as the exactly
equivalent integer comparison `total ≤ 75 * 9` (see the header). -/
def isLoopDetectedForChunk (l : LoopDetectionService) (chunk hash : List Char) :
    Bool × LoopDetectionService :=
  match l.contentStats hash with
  | [] =>
    (false, { l with contentStats := statsInsert l.contentStats hash [l.lastContentIndex] })
  | i0 :: _ =>
    if ¬ isActualContentMatch l chunk i0 then (false, l)
    else
      let newIndices := l.contentStats hash ++ [l.lastContentIndex]
      let l' := { l with contentStats := statsInsert l.contentStats hash newIndices }
      if newIndices.length < CONTENT_LOOP_THRESHOLD then (false, l')
      else
        let recent := newIndices.drop (newIndices.length - CONTENT_LOOP_THRESHOLD)
        let totalDistance : Int := (recent.getLastD 0 : Int) - (recent.headD 0 : Int)
        (decide (totalDistance ≤ CONTENT_CHUNK_SIZE * 3 / 2 * (CONTENT_LOOP_THRESHOLD - 1)),
          l')

/-- `hasMoreChunksToProcess`. -/
def hasMoreChunksToProcess (l : LoopDetectionService) : Bool :=
  decide (l.lastContentIndex + CONTENT_CHUNK_SIZE ≤ l.streamContentHistory.length)

/-- The chunk `l.streamContentHistory[l.lastContentIndex:endIndex]` extracted
at the top of the loop body of `analyzeContentChunksForLoop`, where
`endIndex` is `lastContentIndex + CONTENT_CHUNK_SIZE` clamped to the buffer
length. -/
def currentChunkOf (l : LoopDetectionService) : List Char :=
  (l.streamContentHistory.drop l.lastContentIndex).take
    (min (l.lastContentIndex + CONTENT_CHUNK_SIZE) l.streamContentHistory.length
      - l.lastContentIndex)

/-- One service-state step of the loop body (record the chunk occurrence /
run the cluster check via `isLoopDetectedForChunk`). -/
def chunkStep (l : LoopDetectionService) : Bool × LoopDetectionService :=
  isLoopDetectedForChunk l (currentChunkOf l) (hashChunk (currentChunkOf l))

/-- The `for l.hasMoreChunksToProcess()` loop of `analyzeContentChunksForLoop`,
with explicit fuel so the recursion is structural (hence kernel-executable).
The loop advances `lastContentIndex` by one per iteration and the buffer is
not modified inside the loop, so `buffer length + 1 - cursor` iterations
always suffice; `analyzeGo_fuel_irrelevant` below proves any sufficient fuel
gives the same result, so the fuel is not observable. -/
def analyzeGo (fuel : Nat) (l : LoopDetectionService) : Bool × LoopDetectionService :=
  match fuel with
  | 0 => (false, l)
  | fuel + 1 =>
    if hasMoreChunksToProcess l then
      if (chunkStep l).1 then (true, (chunkStep l).2)
      else
        analyzeGo fuel
          { (chunkStep l).2 with lastContentIndex := (chunkStep l).2.lastContentIndex + 1 }
    else (false, l)

/-- `analyzeContentChunksForLoop`. -/
def analyzeContentChunksForLoop (l : LoopDetectionService) :
    Bool × LoopDetectionService :=
  analyzeGo (l.streamContentHistory.length + 1 - l.lastContentIndex) l

/-- `truncateAndUpdate`. -/
def truncateAndUpdate (l : LoopDetectionService) : LoopDetectionService :=
  if l.streamContentHistory.length ≤ MAX_HISTORY_LENGTH then l
  else
    let truncationAmount := l.streamContentHistory.length - MAX_HISTORY_LENGTH
    { l with
      streamContentHistory := l.streamContentHistory.drop truncationAmount
      lastContentIndex := l.lastContentIndex - truncationAmount
      contentStats := fun h =>
        (l.contentStats h).filterMap fun j =>
          if truncationAmount ≤ j then some (j - truncationAmount) else Option.none }

/-- `checkContentLoop`. -/
def checkContentLoop (l : LoopDetectionService) (content : List Char) :
    Bool × LoopDetectionService :=
  let numFences := countFences content
  let hasTable := hasTableB content
  let hasListItem := hasListItemB content
  let hasHeading := hasHeadingB content
  let hasBlockquote := hasBlockquoteB content
  let isDivider := isDividerB content
  let l1 :=
    if numFences > 0 || hasTable || hasListItem || hasHeading || hasBlockquote
        || isDivider then
      resetContentTracking l false
    else l
  let wasInCodeBlock := l1.inCodeBlock
  let l2 := { l1 with inCodeBlock := (decide (numFences % 2 = 0)) == l1.inCodeBlock }
  if wasInCodeBlock || l2.inCodeBlock || isDivider then (false, l2)
  else
    let l3 := { l2 with streamContentHistory := l2.streamContentHistory ++ content }
    analyzeContentChunksForLoop (truncateAndUpdate l3)

/-! ## The façade dispatcher -/

/-- `AddAndCheck`. -/
def AddAndCheck (l : LoopDetectionService) (event : StreamEvent) :
    Bool × LoopDetectionService :=
  if l.loopDetected then (true, l)
  else
    match event.etype with
    | .toolCall =>
      let la := resetContentTracking l false
      match event.data with
      | .toolCall tc =>
        let r := checkToolCallLoop la tc
        let lb := { r.2 with loopDetected := r.1 }
        (lb.loopDetected, lb)
      | _ => (la.loopDetected, la)
    | .content =>
      match event.data with
      | .content c =>
        let r := checkContentLoop l c.text
        let lb := { r.2 with loopDetected := r.1 }
        (lb.loopDetected, lb)
      | _ => (l.loopDetected, l)
    | _ => (l.loopDetected, l)

/-- Sequential feeding of a list of events, collecting each call's result. -/
def runAddAndCheck (l : LoopDetectionService) :
    List StreamEvent → List Bool × LoopDetectionService
  | [] => ([], l)
  | e :: rest =>
    let r := AddAndCheck l e
    let rs := runAddAndCheck r.2 rest
    (r.1 :: rs.1, rs.2)

/-- Sequential feeding of content fragments through `checkContentLoop`. -/
def runCheckContent (l : LoopDetectionService) :
    List (List Char) → List Bool × LoopDetectionService
  | [] => ([], l)
  | c :: rest =>
    let r := checkContentLoop l c
    let rs := runCheckContent r.2 rest
    (r.1 :: rs.1, rs.2)

/-! ## The stream session controller (`client.go`, `SendMessageStream`)

The embedding keeps the session-management state (`sessionTurnCount`,
`lastPromptID`, `loopDetector`) and the configuration fields the function
reads.  The provider is modelled by the list of events its stream yields; the
outbound channel by the returned list of events.  Provider switching and the
per-field copy `convertEventData` (which translates `Content`/`Thought`
payloads between two structurally identical Go types and passes everything
else through) are identities in this model and are not represented. -/

structure Config where
  maxSessionTurns : Int
  loopDetectionEnabled : Bool

structure Client where
  sessionTurnCount : Int
  lastPromptID : String
  loopDetector : LoopDetectionService

/-- A freshly constructed client (`NewClient`): zero-valued session state and
a fresh loop detector. -/
def newClient : Client where
  sessionTurnCount := 0
  lastPromptID := ""
  loopDetector := newLoopDetectionService

/-- The `for event := range providerChan` loop of `SendMessageStream`:
forwards events, runs `AddAndCheck` when enabled, emits a terminal
loop-detected event on detection, and stops after forwarding an error
event. -/
def streamEvents (cfg : Config) (promptID : String) :
    Client → List StreamEvent → List StreamEvent × Client
  | c, [] => ([], c)
  | c, ev :: rest =>
    if cfg.loopDetectionEnabled && (AddAndCheck c.loopDetector ev).1 then
      let c' := { c with loopDetector := (AddAndCheck c.loopDetector ev).2 }
      let lt := if ev.etype = .content then LoopType.content else LoopType.toolCall
      let description :=
        if ev.etype = .content then "Content repetition loop detected"
        else "Tool call loop detected"
      ([newLoopDetectedEvent lt promptID description c.sessionTurnCount], c')
    else
      let c' :=
        if cfg.loopDetectionEnabled then
          { c with loopDetector := (AddAndCheck c.loopDetector ev).2 }
        else c
      if ev.etype = .error then ([ev], c')
      else
        let rs := streamEvents cfg promptID c' rest
        (ev :: rs.1, rs.2)

/-- `SendMessageStream`: prompt-identity bookkeeping, the session-turn
budget gate, the `TurnStarted` probe, then the provider stream loop. -/
def SendMessageStream (cfg : Config) (c : Client) (promptID : String)
    (providerEvents : List StreamEvent) : List StreamEvent × Client :=
  let c1 :=
    if c.lastPromptID ≠ promptID then
      { c with
        loopDetector := Reset c.loopDetector promptID
        lastPromptID := promptID
        sessionTurnCount := 0 }
    else c
  let c2 := { c1 with sessionTurnCount := c1.sessionTurnCount + 1 }
  if cfg.maxSessionTurns > 0 ∧ c2.sessionTurnCount > cfg.maxSessionTurns then
    ([newMaxSessionTurnsEvent c2.sessionTurnCount cfg.maxSessionTurns promptID], c2)
  else if cfg.loopDetectionEnabled then
    let r := TurnStarted c2.loopDetector
    let c3 := { c2 with loopDetector := r.2 }
    if r.1 then
      ([newLoopDetectedEvent .llmDetected promptID "LLM detected conversation loop"
          c3.sessionTurnCount], c3)
    else streamEvents cfg promptID c3 providerEvents
  else streamEvents cfg promptID c2 providerEvents

/-- Spec-side description (§6/§8 of the spec) of a fully pass-through
controller: every provider event is forwarded unchanged, up to and including
a terminal error event.  Used to compare the disabled-detection behaviour of
`SendMessageStream` against the spec's words. -/
def forwardUntilErrorSpec : List StreamEvent → List StreamEvent
  | [] => []
  | ev :: rest =>
    if ev.etype = .error then [ev] else ev :: forwardUntilErrorSpec rest

/-- The `recentIndices` slice of `isLoopDetectedForChunk`:
`existingIndices[len(existingIndices)-CONTENT_LOOP_THRESHOLD:]`, the most
recent `CONTENT_LOOP_THRESHOLD` occurrence offsets. -/
def recentWindow (indices : List Nat) : List Nat :=
  indices.drop (indices.length - CONTENT_LOOP_THRESHOLD)

/-! ## Concrete instances used by witnesses and counterexamples -/

/-- A service whose sticky flag is already latched. -/
def lLatched : LoopDetectionService :=
  { newLoopDetectionService with loopDetected := true }

/-- A plain content event. -/
def evContentHello : StreamEvent :=
  { etype := .content, data := .content ⟨"Hello".data⟩ }

/-- A serializable tool call. -/
def tcW2 : ToolCallEvent := { callID := "c1", toolName := "t2", arguments := some "a" }

/-- The stream event carrying `tcW2`. -/
def evTcW2 : StreamEvent := { etype := .toolCall, data := .toolCall tcW2 }

/-- A service whose last tool-call key differs from `getToolCallKey tcW2`. -/
def lDiffKey : LoopDetectionService :=
  { newLoopDetectionService with lastToolCallKey := "x", toolCallRepetitionCount := 3 }

/-- A service with a non-empty rolling buffer. -/
def lC9 : LoopDetectionService :=
  { newLoopDetectionService with
    streamContentHistory := "abc".data
    contentStats := fun h => if h = "abc".data then [0] else []
    lastContentIndex := 2 }

/-- A tool-call event fed while `lC9` holds content state. -/
def evTc9 : StreamEvent :=
  { etype := .toolCall
    data := .toolCall { callID := "c9", toolName := "t9", arguments := some "x" } }

/-- A service whose buffer already holds heavy repetition that was fully
scanned (cursor past the last chunk), with an empty fingerprint index. -/
def lC10 : LoopDetectionService :=
  { newLoopDetectionService with
    streamContentHistory := List.replicate 550 'A'
    lastContentIndex := 501 }

/-- A fragment containing a structural marker (a heading). -/
def markerFrag : List Char := "# x".data

/-- The 50-byte chunk used in the cluster-threshold witness. -/
def chunkC1 : List Char := List.replicate 50 'A'

/-- A service state one verified occurrence short of the content-loop
threshold for `chunkC1`, with the buffer making every recorded offset a
genuine match. -/
def lC1 : LoopDetectionService :=
  { newLoopDetectionService with
    streamContentHistory := List.replicate 59 'A'
    contentStats := fun h =>
      if h = List.replicate 50 'A' then [0, 1, 2, 3, 4, 5, 6, 7, 8] else []
    lastContentIndex := 9 }

/-- The fingerprint key used in the truncation witness. -/
def keyB : List Char := "k".data

/-- A service whose buffer exceeds `MAX_HISTORY_LENGTH` by 100, with offsets
on both sides of the truncation point. -/
def lBig : LoopDetectionService :=
  { newLoopDetectionService with
    streamContentHistory := List.replicate 1100 'B'
    contentStats := fun h => if h = keyB then [50, 99, 100] else []
    lastContentIndex := 1050 }

/-- The configuration of the turn-budget scenario (`maxSessionTurns = 3`). -/
def cfgC6 : Config := { maxSessionTurns := 3, loopDetectionEnabled := false }

/-- The benign provider stream of the turn-budget scenario. -/
def evsHello : List StreamEvent :=
  [{ etype := .content, data := .content ⟨"Hello".data⟩ },
   { etype := .finished, data := .none }]

/-- Client state after the first generation call of the scenario. -/
def c6s1 : Client := (SendMessageStream cfgC6 newClient "prompt-1" evsHello).2

/-- Client state after the second generation call. -/
def c6s2 : Client := (SendMessageStream cfgC6 c6s1 "prompt-1" evsHello).2

/-- Client state after the third generation call. -/
def c6s3 : Client := (SendMessageStream cfgC6 c6s2 "prompt-1" evsHello).2

/-- Client state after the fourth (budget-exceeding) generation call. -/
def c6s4 : Client := (SendMessageStream cfgC6 c6s3 "prompt-1" []).2

/-- A client with a latched loop detector under prompt "a". -/
def cC7 : Client :=
  { sessionTurnCount := 0
    lastPromptID := "a"
    loopDetector := { newLoopDetectionService with promptID := "a", loopDetected := true } }

/-- A small provider stream for the pass-through witness. -/
def evsC7 : List StreamEvent :=
  [evTcW2, { etype := .content, data := .content ⟨"hi".data⟩ }]

/-- A tool call whose arguments `json.Marshal` rejects. -/
def tcBad : ToolCallEvent :=
  { callID := "call-1", toolName := "t", arguments := Option.none }

/-- A service that has already seen `tcBad`-keyed calls four times in a
row. -/
def lC8 : LoopDetectionService :=
  { newLoopDetectionService with
    lastToolCallKey := getToolCallKey tcBad
    toolCallRepetitionCount := 4 }

/-- A service whose last key differs from `tcBad`'s degenerate key. -/
def lC8b : LoopDetectionService :=
  { newLoopDetectionService with lastToolCallKey := "other", toolCallRepetitionCount := 2 }

/-- A service currently inside a fenced code block. -/
def lInFence : LoopDetectionService :=
  { newLoopDetectionService with inCodeBlock := true }

/-- Opening fence fragment for the fence-immunity witness. -/
def openW : List Char := "```go\n".data

/-- Repeated in-fence fragment for the fence-immunity witness. -/
def midW : List Char := "repeat this line\n".data

/-- Closing fence fragment for the fence-immunity witness. -/
def closeW : List Char := "\n```\n".data

/-! ## Helper lemmas -/

/-- `isLoopDetectedForChunk` only writes `contentStats`; every other field of
the service is left unchanged. -/
theorem isLoopDetectedForChunk_fields (l : LoopDetectionService)
    (chunk hash : List Char) :
    (isLoopDetectedForChunk l chunk hash).2.streamContentHistory
        = l.streamContentHistory
      ∧ (isLoopDetectedForChunk l chunk hash).2.lastContentIndex = l.lastContentIndex
      ∧ (isLoopDetectedForChunk l chunk hash).2.loopDetected = l.loopDetected
      ∧ (isLoopDetectedForChunk l chunk hash).2.inCodeBlock = l.inCodeBlock
      ∧ (isLoopDetectedForChunk l chunk hash).2.lastToolCallKey = l.lastToolCallKey
      ∧ (isLoopDetectedForChunk l chunk hash).2.toolCallRepetitionCount
        = l.toolCallRepetitionCount := by
  unfold isLoopDetectedForChunk
  rcases hm : l.contentStats hash with _ | ⟨i0, rest⟩
  · simp [hm]
  · simp only [hm]
    split
    · simp
    · split <;> simp

/-- The analysis loop only writes `contentStats` and `lastContentIndex`. -/
theorem analyzeGo_fields (fuel : Nat) (l : LoopDetectionService) :
    (analyzeGo fuel l).2.streamContentHistory = l.streamContentHistory
      ∧ (analyzeGo fuel l).2.loopDetected = l.loopDetected
      ∧ (analyzeGo fuel l).2.inCodeBlock = l.inCodeBlock
      ∧ (analyzeGo fuel l).2.lastToolCallKey = l.lastToolCallKey
      ∧ (analyzeGo fuel l).2.toolCallRepetitionCount = l.toolCallRepetitionCount := by
  induction fuel generalizing l with
  | zero => simp [analyzeGo]
  | succ fuel ih =>
    have hf := isLoopDetectedForChunk_fields l (currentChunkOf l)
      (hashChunk (currentChunkOf l))
    unfold analyzeGo
    split
    · split
      · dsimp only
        simp only [chunkStep]
        exact ⟨hf.1, hf.2.2.1, hf.2.2.2.1, hf.2.2.2.2.1, hf.2.2.2.2.2⟩
      · have hrec := ih { (chunkStep l).2 with
          lastContentIndex := (chunkStep l).2.lastContentIndex + 1 }
        simp only [chunkStep] at hrec ⊢
        simp_all
    · simp

theorem resetContentTracking_inCodeBlock (l : LoopDetectionService) (b : Bool) :
    (resetContentTracking l b).inCodeBlock = l.inCodeBlock := rfl

theorem resetContentTracking_loopDetected (l : LoopDetectionService) (b : Bool) :
    (resetContentTracking l b).loopDetected = l.loopDetected := rfl

theorem resetContentTracking_history (l : LoopDetectionService) :
    (resetContentTracking l false).streamContentHistory = l.streamContentHistory := rfl

theorem resetContentTracking_contentStats (l : LoopDetectionService) (b : Bool) :
    (resetContentTracking l b).contentStats = fun _ => [] := rfl

theorem resetContentTracking_lastContentIndex (l : LoopDetectionService) (b : Bool) :
    (resetContentTracking l b).lastContentIndex = 0 := rfl

theorem resetContentTracking_toolFields (l : LoopDetectionService) (b : Bool) :
    (resetContentTracking l b).lastToolCallKey = l.lastToolCallKey
      ∧ (resetContentTracking l b).toolCallRepetitionCount
        = l.toolCallRepetitionCount := ⟨rfl, rfl⟩

/-- Once the cursor is past the last full chunk, the loop does nothing, for
any fuel. -/
theorem analyzeGo_of_no_more (l : LoopDetectionService)
    (h : hasMoreChunksToProcess l = false) :
    ∀ fuel, analyzeGo fuel l = (false, l) := by
  intro fuel
  cases fuel <;> simp [analyzeGo, h]

/-- Any fuel of at least `buffer length + 1 - cursor` yields the same result:
the fuelled loop faithfully models Go's unbounded `for` loop. -/
theorem analyzeGo_fuel_irrelevant :
    ∀ (f1 f2 : Nat) (l : LoopDetectionService),
      l.streamContentHistory.length + 1 - l.lastContentIndex ≤ f1 →
      l.streamContentHistory.length + 1 - l.lastContentIndex ≤ f2 →
      analyzeGo f1 l = analyzeGo f2 l := by
  intro f1
  induction f1 with
  | zero =>
    intro f2 l h1 _
    have hno : hasMoreChunksToProcess l = false := by
      simp only [hasMoreChunksToProcess, decide_eq_false_iff_not]
      simp only [CONTENT_CHUNK_SIZE]
      omega
    rw [analyzeGo_of_no_more l hno, analyzeGo_of_no_more l hno]
  | succ f1 ih =>
    intro f2 l h1 h2
    cases f2 with
    | zero =>
      have hno : hasMoreChunksToProcess l = false := by
        simp only [hasMoreChunksToProcess, decide_eq_false_iff_not]
        simp only [CONTENT_CHUNK_SIZE]
        omega
      rw [analyzeGo_of_no_more l hno, analyzeGo_of_no_more l hno]
    | succ f2 =>
      by_cases hmore : hasMoreChunksToProcess l = true
      · have hcur : l.lastContentIndex + CONTENT_CHUNK_SIZE
            ≤ l.streamContentHistory.length := by
          simpa [hasMoreChunksToProcess] using hmore
        have hcs := isLoopDetectedForChunk_fields l (currentChunkOf l)
          (hashChunk (currentChunkOf l))
        show analyzeGo (f1 + 1) l = analyzeGo (f2 + 1) l
        unfold analyzeGo
        rw [if_pos hmore, if_pos hmore]
        split
        · rfl
        · apply ih
          · simp only [chunkStep]
            rw [hcs.1, hcs.2.1]
            simp only [CONTENT_CHUNK_SIZE] at hcur
            omega
          · simp only [chunkStep]
            rw [hcs.1, hcs.2.1]
            simp only [CONTENT_CHUNK_SIZE] at hcur
            omega
      · have hno : hasMoreChunksToProcess l = false := by
          simpa using hmore
        rw [analyzeGo_of_no_more l hno, analyzeGo_of_no_more l hno]

/-- The buffer length after `truncateAndUpdate` is the old length clamped to
`MAX_HISTORY_LENGTH`. -/
theorem truncateAndUpdate_length (m : LoopDetectionService) :
    (truncateAndUpdate m).streamContentHistory.length
      = min m.streamContentHistory.length MAX_HISTORY_LENGTH := by
  unfold truncateAndUpdate
  split
  · next h => simp; omega
  · next h => simp [List.length_drop]; omega

/-- Behaviour of `checkContentLoop` on a skipped fragment: if the fragment
started inside a code fence, ends inside one, or is a pure divider line, the
call returns `false`, leaves the buffer as it was, and either leaves the
fingerprint index unchanged or (when a structural marker forced a reset)
clears it. -/
theorem checkContentLoop_skip (l : LoopDetectionService) (content : List Char)
    (hGuard : (l.inCodeBlock
        || ((decide (countFences content % 2 = 0)) == l.inCodeBlock)
        || isDividerB content) = true) :
    (checkContentLoop l content).1 = false
      ∧ (checkContentLoop l content).2.streamContentHistory
        = l.streamContentHistory
      ∧ ((checkContentLoop l content).2.contentStats = l.contentStats
          ∨ (checkContentLoop l content).2.contentStats = fun _ => [])
      ∧ (checkContentLoop l content).2.inCodeBlock
        = ((decide (countFences content % 2 = 0)) == l.inCodeBlock)
      ∧ (checkContentLoop l content).2.loopDetected = l.loopDetected := by
  have hG2 : ∀ (m : LoopDetectionService), m.inCodeBlock = l.inCodeBlock →
      ((m.inCodeBlock || ((decide (countFences content % 2 = 0)) == m.inCodeBlock)
        || isDividerB content) = true) := by
    intro m hm
    rw [hm]
    exact hGuard
  simp only [checkContentLoop]
  split
  · rw [if_pos (hG2 (resetContentTracking l false) rfl)]
    exact ⟨rfl, rfl, Or.inr rfl, rfl, rfl⟩
  · exact ⟨rfl, rfl, Or.inl rfl, rfl, rfl⟩

/-- On the skip path with a structural marker present, `checkContentLoop`
clears the fingerprint index and resets the scan cursor, keeping the
buffer. -/
theorem checkContentLoop_skip_reset (l : LoopDetectionService)
    (content : List Char)
    (hMark : (decide (countFences content > 0) || hasTableB content
        || hasListItemB content || hasHeadingB content || hasBlockquoteB content
        || isDividerB content) = true)
    (hGuard : (l.inCodeBlock
        || ((decide (countFences content % 2 = 0)) == l.inCodeBlock)
        || isDividerB content) = true) :
    (checkContentLoop l content).1 = false
      ∧ (checkContentLoop l content).2.streamContentHistory
        = l.streamContentHistory
      ∧ (checkContentLoop l content).2.contentStats = (fun _ => [])
      ∧ (checkContentLoop l content).2.lastContentIndex = 0 := by
  have hG2 : ∀ (m : LoopDetectionService), m.inCodeBlock = l.inCodeBlock →
      ((m.inCodeBlock || ((decide (countFences content % 2 = 0)) == m.inCodeBlock)
        || isDividerB content) = true) := by
    intro m hm
    rw [hm]
    exact hGuard
  simp only [checkContentLoop]
  split
  · rw [if_pos (hG2 (resetContentTracking l false) rfl)]
    exact ⟨rfl, rfl, rfl, rfl⟩
  · next hcond =>
    exact absurd hMark (by simpa using hcond)

/-- After any `checkContentLoop` call the buffer is either untouched (skip
path) or has the length of "old buffer plus fragment", clamped to
`MAX_HISTORY_LENGTH` (append-then-truncate path). -/
theorem checkContentLoop_history_cases (l : LoopDetectionService)
    (content : List Char) :
    (checkContentLoop l content).2.streamContentHistory = l.streamContentHistory
      ∨ (checkContentLoop l content).2.streamContentHistory.length
        = min (l.streamContentHistory.length + content.length) MAX_HISTORY_LENGTH := by
  simp only [checkContentLoop]
  split
  · split
    · exact Or.inl rfl
    · refine Or.inr ?_
      rw [analyzeContentChunksForLoop, (analyzeGo_fields _ _).1,
        truncateAndUpdate_length]
      simp [resetContentTracking_history]
  · split
    · exact Or.inl rfl
    · refine Or.inr ?_
      rw [analyzeContentChunksForLoop, (analyzeGo_fields _ _).1,
        truncateAndUpdate_length]
      simp

/-- `checkToolCallLoop` only writes the two tool-call tracking fields. -/
theorem checkToolCallLoop_fields (l : LoopDetectionService) (tc : ToolCallEvent) :
    (checkToolCallLoop l tc).2.streamContentHistory = l.streamContentHistory
      ∧ (checkToolCallLoop l tc).2.contentStats = l.contentStats
      ∧ (checkToolCallLoop l tc).2.lastContentIndex = l.lastContentIndex
      ∧ (checkToolCallLoop l tc).2.loopDetected = l.loopDetected
      ∧ (checkToolCallLoop l tc).2.inCodeBlock = l.inCodeBlock := by
  by_cases h : l.lastToolCallKey = getToolCallKey tc <;>
    simp [checkToolCallLoop, h]

/-- A latched service short-circuits `AddAndCheck`. -/
theorem addAndCheck_of_latched (l : LoopDetectionService) (e : StreamEvent)
    (h : l.loopDetected = true) : AddAndCheck l e = (true, l) := by
  simp [AddAndCheck, h]

/-- The Boolean returned by `AddAndCheck` is the sticky flag of the state it
returns. -/
theorem addAndCheck_fst_eq_flag (l : LoopDetectionService) (e : StreamEvent) :
    (AddAndCheck l e).1 = (AddAndCheck l e).2.loopDetected := by
  cases hb : l.loopDetected
  · rcases e with ⟨et, ed⟩
    cases et <;> cases ed <;> simp [AddAndCheck, hb]
  · simp [AddAndCheck, hb]

/-- Repeating a latched state through any event list yields all-`true`. -/
theorem runAddAndCheck_latched (evs : List StreamEvent) :
    ∀ (l : LoopDetectionService), l.loopDetected = true →
      runAddAndCheck l evs = (List.replicate evs.length true, l) := by
  induction evs with
  | nil => intro l h; simp [runAddAndCheck]
  | cons e rest ih =>
    intro l h
    simp [runAddAndCheck, addAndCheck_of_latched l e h, ih l h, List.replicate_succ]

/-- Unfolding of `AddAndCheck` on an unlatched state and a well-formed
tool-call event. -/
theorem addAndCheck_toolCall_eq (l : LoopDetectionService) (tc : ToolCallEvent)
    (h : l.loopDetected = false) :
    AddAndCheck l { etype := .toolCall, data := .toolCall tc }
      = ((checkToolCallLoop (resetContentTracking l false) tc).1,
          { (checkToolCallLoop (resetContentTracking l false) tc).2 with
            loopDetected := (checkToolCallLoop (resetContentTracking l false) tc).1 }) := by
  simp [AddAndCheck, h]

/-- `checkToolCallLoop` when the key matches the stored one. -/
theorem checkToolCallLoop_same_key (l : LoopDetectionService) (tc : ToolCallEvent)
    (h : l.lastToolCallKey = getToolCallKey tc) :
    checkToolCallLoop l tc
      = (decide (TOOL_CALL_LOOP_THRESHOLD ≤ l.toolCallRepetitionCount + 1),
          { l with toolCallRepetitionCount := l.toolCallRepetitionCount + 1 }) := by
  simp [checkToolCallLoop, h, ge_iff_le]

/-- `checkToolCallLoop` when the key differs from the stored one. -/
theorem checkToolCallLoop_new_key (l : LoopDetectionService) (tc : ToolCallEvent)
    (h : ¬ l.lastToolCallKey = getToolCallKey tc) :
    checkToolCallLoop l tc
      = (false,
          { l with lastToolCallKey := getToolCallKey tc, toolCallRepetitionCount := 1 }) := by
  simp [checkToolCallLoop, h, TOOL_CALL_LOOP_THRESHOLD]

/-- A tool-call signature is never the empty string (the Go zero value of
`lastToolCallKey`), since it always contains the `:` separator. -/
theorem getToolCallKey_ne_empty (tc : ToolCallEvent) : getToolCallKey tc ≠ "" := by
  intro h
  have hlen := congrArg String.length h
  rw [getToolCallKey, String.length_append, String.length_append] at hlen
  have h1 : (":" : String).length = 1 := rfl
  have h2 : ("" : String).length = 0 := rfl
  rw [h1, h2] at hlen
  omega

/-! ## The claims -/

/-- C3: the sticky loop flag is monotonic per PromptIdentity.  Once
`AddAndCheck` has returned `true` (equivalently, once `loopDetected` is set),
every subsequent `AddAndCheck` call returns `true` and performs no further
analysis (the state is returned unchanged); the returned Boolean always
coincides with the sticky flag, which therefore never reverts to `false`
under `AddAndCheck` — only `Reset` clears it. -/
theorem sticky_latch_monotonic :
    (∀ (l : LoopDetectionService) (e : StreamEvent),
        l.loopDetected = true → AddAndCheck l e = (true, l))
      ∧ (∀ (l : LoopDetectionService) (e : StreamEvent),
          (AddAndCheck l e).1 = (AddAndCheck l e).2.loopDetected)
      ∧ (∀ (l : LoopDetectionService) (e e2 : StreamEvent),
          (AddAndCheck l e).1 = true →
            AddAndCheck (AddAndCheck l e).2 e2 = (true, (AddAndCheck l e).2)) := by
  refine ⟨addAndCheck_of_latched, addAndCheck_fst_eq_flag, ?_⟩
  intro l e e2 h
  have h2 := addAndCheck_fst_eq_flag l e
  rw [h] at h2
  exact addAndCheck_of_latched _ _ h2.symm

/-- Witness for C3 at a concrete latched state and event. -/
theorem sticky_latch_monotonic_witness :
    AddAndCheck lLatched evContentHello = (true, lLatched) :=
  sticky_latch_monotonic.1 lLatched evContentHello rfl

/-- C9: when an unlatched service processes a ToolCall event, the content
tracker's fingerprint index is cleared while the rolling text buffer is left
unchanged (this holds before — hence also after — the tool-call repetition
check, which does not touch either field); the buffer itself is never emptied
by `AddAndCheck`, only by `Reset`. -/
theorem toolcall_clears_index_not_buffer :
    (∀ (l : LoopDetectionService) (e : StreamEvent),
        l.loopDetected = false → e.etype = .toolCall →
          (AddAndCheck l e).2.streamContentHistory = l.streamContentHistory
            ∧ (AddAndCheck l e).2.contentStats = (fun _ => []))
      ∧ (∀ (l : LoopDetectionService) (e : StreamEvent),
          l.streamContentHistory ≠ [] →
            (AddAndCheck l e).2.streamContentHistory ≠ [])
      ∧ (∀ (l : LoopDetectionService) (pid : String),
          (Reset l pid).streamContentHistory = []) := by
  refine ⟨?_, ?_, fun l pid => rfl⟩
  · intro l e h he
    rcases e with ⟨et, ed⟩
    simp only at he
    subst he
    cases ed with
    | toolCall tc =>
      have hf := checkToolCallLoop_fields (resetContentTracking l false) tc
      simp only [AddAndCheck, h] at *
      simp_all [resetContentTracking]
    | _ => simp [AddAndCheck, h, resetContentTracking]
  · intro l e hne
    cases hb : l.loopDetected
    · rcases e with ⟨et, ed⟩
      cases et with
      | toolCall =>
        cases ed with
        | toolCall tc =>
          have hf := checkToolCallLoop_fields (resetContentTracking l false) tc
          rw [addAndCheck_toolCall_eq l tc hb]
          show (checkToolCallLoop (resetContentTracking l false) tc).2.streamContentHistory ≠ []
          rw [hf.1]
          exact hne
        | content c => simpa [AddAndCheck, hb, resetContentTracking] using hne
        | loopDetected lt pid desc tcnt =>
          simpa [AddAndCheck, hb, resetContentTracking] using hne
        | maxSessionT ct mt pid =>
          simpa [AddAndCheck, hb, resetContentTracking] using hne
        | none => simpa [AddAndCheck, hb, resetContentTracking] using hne
      | content =>
        cases ed with
        | content c =>
          have hAC : (AddAndCheck l
                { etype := EventType.content, data := EventData.content c }).2.streamContentHistory
              = (checkContentLoop l c.text).2.streamContentHistory := by
            simp [AddAndCheck, hb]
          rcases checkContentLoop_history_cases l c.text with hsame | hlen
          · intro hnil
            rw [hAC, hsame] at hnil
            exact hne hnil
          · intro hnil
            rw [hAC] at hnil
            rw [hnil] at hlen
            simp only [List.length_nil] at hlen
            have hpos : 0 < l.streamContentHistory.length :=
              List.length_pos.mpr hne
            simp only [MAX_HISTORY_LENGTH] at hlen
            omega
        | toolCall tc => simpa [AddAndCheck, hb] using hne
        | loopDetected lt pid desc tcnt => simpa [AddAndCheck, hb] using hne
        | maxSessionT ct mt pid => simpa [AddAndCheck, hb] using hne
        | none => simpa [AddAndCheck, hb] using hne
      | finished => simpa [AddAndCheck, hb] using hne
      | error => simpa [AddAndCheck, hb] using hne
      | loopDetected => simpa [AddAndCheck, hb] using hne
      | maxSessionT => simpa [AddAndCheck, hb] using hne
      | other => simpa [AddAndCheck, hb] using hne
    · rw [addAndCheck_of_latched l e hb]
      exact hne

/-- Witness for C9 at a concrete unlatched state with non-empty buffer. -/
theorem toolcall_clears_index_not_buffer_witness :
    ((AddAndCheck lC9 evTc9).2.streamContentHistory = lC9.streamContentHistory
        ∧ (AddAndCheck lC9 evTc9).2.contentStats = (fun _ => []))
      ∧ (AddAndCheck lC9 evTc9).2.streamContentHistory ≠ [] :=
  ⟨toolcall_clears_index_not_buffer.1 lC9 evTc9 rfl rfl,
    toolcall_clears_index_not_buffer.2.1 lC9 evTc9 (by decide)⟩

set_option maxRecDepth 400000 in
/-- C10: whenever the fingerprint index is cleared without clearing the
buffer — on a ToolCall event, or on a content fragment carrying a structural
marker — the scan cursor `lastContentIndex` is also reset to 0, so the
retained buffer text is re-scanned from the beginning; concretely, on the
state `lC10` (550 repeated bytes already fully scanned, cursor at 501) a
single heading-marker fragment makes `checkContentLoop` re-index the old text
and report a loop from the pre-reset repetition alone. -/
theorem index_reset_rescans_buffer :
    (∀ (l : LoopDetectionService) (e : StreamEvent),
        l.loopDetected = false → e.etype = .toolCall →
          (AddAndCheck l e).2.lastContentIndex = 0)
      ∧ (∀ (l : LoopDetectionService) (content : List Char),
          (decide (countFences content > 0) || hasTableB content
            || hasListItemB content || hasHeadingB content
            || hasBlockquoteB content || isDividerB content) = true →
          (l.inCodeBlock
            || ((decide (countFences content % 2 = 0)) == l.inCodeBlock)
            || isDividerB content) = true →
          (checkContentLoop l content).2.lastContentIndex = 0
            ∧ (checkContentLoop l content).2.contentStats = (fun _ => [])
            ∧ (checkContentLoop l content).2.streamContentHistory
              = l.streamContentHistory)
      ∧ (checkContentLoop lC10 markerFrag).1 = true := by
  refine ⟨?_, ?_, ?_⟩
  · intro l e h he
    rcases e with ⟨et, ed⟩
    simp only at he
    subst he
    cases ed with
    | toolCall tc =>
      have hf := checkToolCallLoop_fields (resetContentTracking l false) tc
      simp only [AddAndCheck, h] at *
      simp_all [resetContentTracking]
    | _ => simp [AddAndCheck, h, resetContentTracking]
  · intro l content hMark hGuard
    have hs := checkContentLoop_skip_reset l content hMark hGuard
    exact ⟨hs.2.2.2, hs.2.2.1, hs.2.1⟩
  · decide

/-- Witness for C10's universally quantified parts: a pure divider fragment
on a fresh service clears the index, zeroes the cursor and keeps the
buffer. -/
theorem index_reset_rescans_buffer_witness :
    (AddAndCheck lC9 { etype := .toolCall, data := .toolCall tcW2 }).2.lastContentIndex = 0
      ∧ ((checkContentLoop lC9 "---".data).2.lastContentIndex = 0
          ∧ (checkContentLoop lC9 "---".data).2.contentStats = (fun _ => [])
          ∧ (checkContentLoop lC9 "---".data).2.streamContentHistory
            = lC9.streamContentHistory) :=
  ⟨index_reset_rescans_buffer.1 lC9 _ rfl rfl,
    index_reset_rescans_buffer.2.1 lC9 "---".data (by decide) (by decide)⟩

/-- C8 counterexample: a ToolCall whose arguments cannot be serialized is
*not* skipped: on a state that has seen the same degenerate key 4 times,
the 5th unserializable call extends the streak to 5 and declares a loop —
contradicting "does not start or extend a repetition streak". -/
theorem unserializable_args_counterexample :
    tcBad.arguments = Option.none
      ∧ (checkToolCallLoop lC8 tcBad).2.toolCallRepetitionCount
        = lC8.toolCallRepetitionCount + 1
      ∧ (checkToolCallLoop lC8 tcBad).1 = true := ⟨rfl, rfl, rfl⟩

/-- C8 (amended): an unserializable argument map does not abort or skip the
event; `json.Marshal`'s error is ignored, the key degenerates to
`name + ":"` (empty serialization), and the call starts or extends a
repetition streak exactly like any other call with that key. -/
theorem unserializable_args_still_counted :
    ∀ (l : LoopDetectionService) (tc : ToolCallEvent),
      tc.arguments = Option.none →
      getToolCallKey tc = tc.toolName ++ ":" ++ ""
        ∧ ((checkToolCallLoop l tc).2.toolCallRepetitionCount
            = if l.lastToolCallKey = getToolCallKey tc
              then l.toolCallRepetitionCount + 1 else 1)
        ∧ ((checkToolCallLoop l tc).1
            = decide ((checkToolCallLoop l tc).2.toolCallRepetitionCount
                ≥ TOOL_CALL_LOOP_THRESHOLD)) := by
  intro l tc h
  refine ⟨by simp [getToolCallKey, h], ?_, ?_⟩
  · by_cases hk : l.lastToolCallKey = getToolCallKey tc
    · rw [checkToolCallLoop_same_key l tc hk]
      simp [hk]
    · rw [checkToolCallLoop_new_key l tc hk]
      simp [hk]
  · by_cases hk : l.lastToolCallKey = getToolCallKey tc
    · rw [checkToolCallLoop_same_key l tc hk]
    · rw [checkToolCallLoop_new_key l tc hk]
      rfl

/-- One step of `runAddAndCheck`. -/
theorem runAddAndCheck_cons (l : LoopDetectionService) (e : StreamEvent)
    (rest : List StreamEvent) :
    runAddAndCheck l (e :: rest)
      = ((AddAndCheck l e).1 :: (runAddAndCheck (AddAndCheck l e).2 rest).1,
          (runAddAndCheck (AddAndCheck l e).2 rest).2) := rfl

/-- `AddAndCheck` on an unlatched state and a tool call whose key matches the
stored one: the streak is extended and the sticky flag set iff the threshold
is reached. -/
theorem addAndCheck_toolCall_same_key (l : LoopDetectionService)
    (tc : ToolCallEvent) (h1 : l.loopDetected = false)
    (h2 : l.lastToolCallKey = getToolCallKey tc) :
    AddAndCheck l { etype := .toolCall, data := .toolCall tc }
      = (decide (TOOL_CALL_LOOP_THRESHOLD ≤ l.toolCallRepetitionCount + 1),
          { l with
            contentStats := fun _ => []
            lastContentIndex := 0
            toolCallRepetitionCount := l.toolCallRepetitionCount + 1
            loopDetected :=
              decide (TOOL_CALL_LOOP_THRESHOLD ≤ l.toolCallRepetitionCount + 1) }) := by
  rw [addAndCheck_toolCall_eq l tc h1,
    checkToolCallLoop_same_key (resetContentTracking l false) tc h2]
  rfl

/-- `AddAndCheck` on an unlatched state and a tool call whose key differs
from the stored one: the streak restarts at 1 and no loop is reported. -/
theorem addAndCheck_toolCall_new_key (l : LoopDetectionService)
    (tc : ToolCallEvent) (h1 : l.loopDetected = false)
    (h2 : ¬ l.lastToolCallKey = getToolCallKey tc) :
    AddAndCheck l { etype := .toolCall, data := .toolCall tc }
      = (false,
          { l with
            contentStats := fun _ => []
            lastContentIndex := 0
            lastToolCallKey := getToolCallKey tc
            toolCallRepetitionCount := 1
            loopDetected := false }) := by
  rw [addAndCheck_toolCall_eq l tc h1,
    checkToolCallLoop_new_key (resetContentTracking l false) tc h2]
  rfl

/-- Feeding `n` copies of one tool call into an unlatched state whose stored
key equals the call's key and whose streak count is `j` with `j + 1` at most
the threshold: the `i`-th result is exactly "the streak has reached the
threshold after `j + i + 1` total occurrences". -/
theorem runAddAndCheck_replicate_same_key (tc : ToolCallEvent) :
    ∀ (n : Nat) (l : LoopDetectionService) (j : Nat),
      l.loopDetected = false → l.lastToolCallKey = getToolCallKey tc →
      l.toolCallRepetitionCount = j → j + 1 ≤ TOOL_CALL_LOOP_THRESHOLD →
      (runAddAndCheck l
          (List.replicate n { etype := .toolCall, data := .toolCall tc })).1
        = (List.range n).map
            (fun i => decide (TOOL_CALL_LOOP_THRESHOLD ≤ j + i + 1)) := by
  intro n
  induction n with
  | zero =>
    intro l j _ _ _ _
    simp [runAddAndCheck]
  | succ n ih =>
    intro l j h1 h2 h3 h4
    rw [List.replicate_succ, runAddAndCheck_cons,
      addAndCheck_toolCall_same_key l tc h1 h2, h3]
    dsimp only
    rw [List.range_succ_eq_map, List.map_cons, List.map_map]
    by_cases hth : TOOL_CALL_LOOP_THRESHOLD ≤ j + 1
    · have hdec : decide (TOOL_CALL_LOOP_THRESHOLD ≤ j + 1) = true :=
        decide_eq_true hth
      have hlat := runAddAndCheck_latched
        (List.replicate n { etype := EventType.toolCall, data := EventData.toolCall tc })
        { l with
          contentStats := fun _ => ([] : List Nat)
          lastContentIndex := 0
          toolCallRepetitionCount := j + 1
          loopDetected := decide (TOOL_CALL_LOOP_THRESHOLD ≤ j + 1) }
        hdec
      rw [hlat]
      dsimp only
      rw [List.length_replicate]
      congr 1
      symm
      show List.map (fun i => decide (TOOL_CALL_LOOP_THRESHOLD ≤ j + (i + 1) + 1))
          (List.range n) = List.replicate n true
      rw [List.map_congr_left (fun i _ =>
        decide_eq_true (show TOOL_CALL_LOOP_THRESHOLD ≤ j + (i + 1) + 1 by
          simp only [TOOL_CALL_LOOP_THRESHOLD] at hth ⊢
          omega))]
      rw [List.map_const', List.length_range]
    · have hdec : decide (TOOL_CALL_LOOP_THRESHOLD ≤ j + 1) = false :=
        decide_eq_false hth
      have hrec := ih
        { l with
          contentStats := fun _ => []
          lastContentIndex := 0
          toolCallRepetitionCount := j + 1
          loopDetected := decide (TOOL_CALL_LOOP_THRESHOLD ≤ j + 1) }
        (j + 1) hdec h2 rfl
        (by simp only [TOOL_CALL_LOOP_THRESHOLD] at hth ⊢; omega)
      rw [hrec]
      congr 1
      exact List.map_congr_left fun i _ =>
        decide_eq_decide.mpr (by simp only [TOOL_CALL_LOOP_THRESHOLD]; omega)

/-- C2: from a freshly `Reset` state, feeding identical `(name, args)` tool
calls with no intervening differing call makes `checkToolCall` (through
`AddAndCheck`) return `false` for the first `TOOL_CALL_LOOP_THRESHOLD − 1 = 4`
calls and `true` from the 5th call onward; and whenever the signature differs
from the stored one, the repeat count is reset to 1 (not 0) and no loop is
reported. -/
theorem toolcall_threshold_behaviour :
    (∀ (l0 : LoopDetectionService) (pid : String) (tc : ToolCallEvent) (n : Nat),
        (runAddAndCheck (Reset l0 pid)
            (List.replicate n { etype := .toolCall, data := .toolCall tc })).1
          = (List.range n).map
              (fun i => decide (TOOL_CALL_LOOP_THRESHOLD ≤ i + 1)))
      ∧ (∀ (l : LoopDetectionService) (tc : ToolCallEvent),
          l.lastToolCallKey ≠ getToolCallKey tc →
            (checkToolCallLoop l tc).2.toolCallRepetitionCount = 1
              ∧ (checkToolCallLoop l tc).1 = false) := by
  constructor
  · intro l0 pid tc n
    cases n with
    | zero => simp [runAddAndCheck]
    | succ n =>
      have h1 : (Reset l0 pid).loopDetected = false := rfl
      have h2 : ¬ (Reset l0 pid).lastToolCallKey = getToolCallKey tc := by
        intro hx
        exact getToolCallKey_ne_empty tc hx.symm
      rw [List.replicate_succ, runAddAndCheck_cons,
        addAndCheck_toolCall_new_key _ tc h1 h2]
      dsimp only
      rw [runAddAndCheck_replicate_same_key tc n _ 1 rfl rfl rfl
        (by simp [TOOL_CALL_LOOP_THRESHOLD])]
      rw [List.range_succ_eq_map, List.map_cons, List.map_map]
      congr 1
      exact List.map_congr_left fun i _ =>
        decide_eq_decide.mpr (by simp only [TOOL_CALL_LOOP_THRESHOLD]; omega)
  · intro l tc h
    rw [checkToolCallLoop_new_key l tc h]
    exact ⟨rfl, rfl⟩

/-- Witness for C2: six identical calls from a fresh reset give
false, false, false, false, true, true; a differing-signature call on a
state with streak 3 restarts the streak at 1. -/
theorem toolcall_threshold_behaviour_witness :
    (runAddAndCheck (Reset newLoopDetectionService "p1")
        (List.replicate 6 { etype := .toolCall, data := .toolCall tcW2 })).1
      = [false, false, false, false, true, true]
      ∧ (checkToolCallLoop lDiffKey tcW2).2.toolCallRepetitionCount = 1
      ∧ (checkToolCallLoop lDiffKey tcW2).1 = false := by
  have h1 := toolcall_threshold_behaviour.1 newLoopDetectionService "p1" tcW2 6
  have h2 := toolcall_threshold_behaviour.2 lDiffKey tcW2 (by decide)
  exact ⟨h1.trans (by decide), h2.1, h2.2⟩

/-- One step of `runCheckContent`. -/
theorem runCheckContent_cons (l : LoopDetectionService) (c : List Char)
    (cs : List (List Char)) :
    runCheckContent l (c :: cs)
      = ((checkContentLoop l c).1
            :: (runCheckContent (checkContentLoop l c).2 cs).1,
          (runCheckContent (checkContentLoop l c).2 cs).2) := rfl

/-- `runCheckContent` distributes over list append. -/
theorem runCheckContent_append :
    ∀ (xs ys : List (List Char)) (l : LoopDetectionService),
      runCheckContent l (xs ++ ys)
        = ((runCheckContent l xs).1
              ++ (runCheckContent (runCheckContent l xs).2 ys).1,
            (runCheckContent (runCheckContent l xs).2 ys).2) := by
  intro xs
  induction xs with
  | nil => intro ys l; simp [runCheckContent]
  | cons x xs ih =>
    intro ys l
    rw [List.cons_append, runCheckContent_cons, runCheckContent_cons, ih]
    simp

/-- A fragment processed while inside a code fence is skipped; the fence
flag afterwards reflects the fragment's fence-delimiter parity. -/
theorem checkContentLoop_inFence (l : LoopDetectionService) (c : List Char)
    (hin : l.inCodeBlock = true) :
    (checkContentLoop l c).1 = false
      ∧ (checkContentLoop l c).2.inCodeBlock
        = ((decide (countFences c % 2 = 0)) == true) := by
  have hs := checkContentLoop_skip l c (by simp [hin])
  exact ⟨hs.1, by rw [hs.2.2.2.1, hin]⟩

/-- A fence-opening fragment (odd delimiter count) outside a fence is
skipped and turns the fence flag on. -/
theorem checkContentLoop_openFence (l : LoopDetectionService) (c : List Char)
    (hout : l.inCodeBlock = false) (hodd : countFences c % 2 = 1) :
    (checkContentLoop l c).1 = false
      ∧ (checkContentLoop l c).2.inCodeBlock = true := by
  have hguard : (l.inCodeBlock
      || ((decide (countFences c % 2 = 0)) == l.inCodeBlock)
      || isDividerB c) = true := by
    simp [hout, hodd]
  have hs := checkContentLoop_skip l c hguard
  exact ⟨hs.1, by simp [hs.2.2.2.1, hout, hodd]⟩

/-- Repeating an even-fence-parity fragment while inside a fence: every
call is skipped and the fence stays open. -/
theorem runCheckContent_fenced (mid : List Char)
    (heven : countFences mid % 2 = 0) :
    ∀ (n : Nat) (l : LoopDetectionService), l.inCodeBlock = true →
      (runCheckContent l (List.replicate n mid)).1 = List.replicate n false
        ∧ (runCheckContent l (List.replicate n mid)).2.inCodeBlock = true := by
  intro n
  induction n with
  | zero => intro l h; exact ⟨rfl, h⟩
  | succ n ih =>
    intro l h
    have hstep := checkContentLoop_inFence l mid h
    have hin2 : (checkContentLoop l mid).2.inCodeBlock = true := by
      rw [hstep.2, heven]
      rfl
    have ihr := ih (checkContentLoop l mid).2 hin2
    rw [List.replicate_succ, runCheckContent_cons]
    refine ⟨?_, ihr.2⟩
    rw [List.replicate_succ]
    simp [hstep.1, ihr.1]

/-- C4: a content fragment that starts inside a fenced code block, ends
inside one, or is itself a pure divider line yields `false` from
`checkContent`, appends nothing to the rolling history, and records no chunk
occurrences (the fingerprint index is left unchanged or cleared, never
extended); in particular a sequence that opens a fence, repeats a
fence-neutral fragment any number of times, then closes the fence reports no
loop on any fragment, including the closing one. -/
theorem codeFence_immunity :
    (∀ (l : LoopDetectionService) (content : List Char),
        (l.inCodeBlock
          || ((decide (countFences content % 2 = 0)) == l.inCodeBlock)
          || isDividerB content) = true →
          (checkContentLoop l content).1 = false
            ∧ (checkContentLoop l content).2.streamContentHistory
              = l.streamContentHistory
            ∧ ((checkContentLoop l content).2.contentStats = l.contentStats
                ∨ (checkContentLoop l content).2.contentStats = fun _ => []))
      ∧ (∀ (l : LoopDetectionService) (openF mid closeF : List Char) (n : Nat),
          l.inCodeBlock = false →
          countFences openF % 2 = 1 → countFences mid % 2 = 0 →
          countFences closeF % 2 = 1 →
          (runCheckContent l (openF :: (List.replicate n mid ++ [closeF]))).1
            = List.replicate (n + 2) false) := by
  constructor
  · intro l content h
    have hs := checkContentLoop_skip l content h
    exact ⟨hs.1, hs.2.1, hs.2.2.1⟩
  · intro l openF mid closeF n hout hopen hmid hclose
    have h1 := checkContentLoop_openFence l openF hout hopen
    have h2 := runCheckContent_fenced mid hmid n (checkContentLoop l openF).2 h1.2
    have h3 := checkContentLoop_inFence
      (runCheckContent (checkContentLoop l openF).2 (List.replicate n mid)).2
      closeF h2.2
    rw [runCheckContent_cons, runCheckContent_append]
    dsimp only
    rw [h1.1, h2.1]
    rw [show (runCheckContent
        (runCheckContent (checkContentLoop l openF).2 (List.replicate n mid)).2
        [closeF]).1
      = [(checkContentLoop
          (runCheckContent (checkContentLoop l openF).2 (List.replicate n mid)).2
          closeF).1] from rfl]
    rw [h3.1]
    rw [show n + 2 = (n + 1) + 1 from rfl, List.replicate_succ,
      List.replicate_succ']

/-- Witness for C4: a fragment inside a fence is skipped on a concrete
state, and a fence-wrapped 20-fold repetition reports no loop anywhere. -/
theorem codeFence_immunity_witness :
    ((checkContentLoop lInFence "xyz".data).1 = false
        ∧ (checkContentLoop lInFence "xyz".data).2.streamContentHistory
          = lInFence.streamContentHistory)
      ∧ (runCheckContent newLoopDetectionService
            (openW :: (List.replicate 20 midW ++ [closeW]))).1
        = List.replicate 22 false := by
  have h1 := codeFence_immunity.1 lInFence "xyz".data (by decide)
  have h2 := codeFence_immunity.2 newLoopDetectionService openW midW closeW 20
    rfl (by decide) (by decide) (by decide)
  exact ⟨⟨h1.1, h1.2.1⟩, h2⟩

/-- C5: after every `checkContent` call on a state respecting the
`MAX_HISTORY_LENGTH` bound, the rolling buffer still respects it; and when
`truncateAndUpdate` actually truncates (buffer longer than the cap), the
buffer becomes its last `MAX_HISTORY_LENGTH` bytes, every stored offset is
shifted left by the dropped amount with offsets that would become negative
removed (empty fingerprint entries thereby disappearing, `[]` being the
absent-key value), every surviving offset addresses exactly the
`CONTENT_CHUNK_SIZE`-byte substring it addressed before, and a successful
equality re-verification at a surviving offset always equals the
pre-truncation text there — no false positive from stale offsets. -/
theorem contentWindow_truncation_correct :
    (∀ (l : LoopDetectionService) (content : List Char),
        l.streamContentHistory.length ≤ MAX_HISTORY_LENGTH →
          (checkContentLoop l content).2.streamContentHistory.length
            ≤ MAX_HISTORY_LENGTH)
      ∧ (∀ (l : LoopDetectionService),
          MAX_HISTORY_LENGTH < l.streamContentHistory.length →
          (truncateAndUpdate l).streamContentHistory
              = l.streamContentHistory.drop
                  (l.streamContentHistory.length - MAX_HISTORY_LENGTH)
            ∧ (truncateAndUpdate l).streamContentHistory.length
              = MAX_HISTORY_LENGTH
            ∧ (∀ hsh, (truncateAndUpdate l).contentStats hsh
                = (l.contentStats hsh).filterMap fun j =>
                    if l.streamContentHistory.length - MAX_HISTORY_LENGTH ≤ j
                    then some (j - (l.streamContentHistory.length - MAX_HISTORY_LENGTH))
                    else Option.none)
            ∧ (∀ hsh j, j ∈ (truncateAndUpdate l).contentStats hsh
                ↔ j + (l.streamContentHistory.length - MAX_HISTORY_LENGTH)
                    ∈ l.contentStats hsh)
            ∧ (∀ j, l.streamContentHistory.length - MAX_HISTORY_LENGTH ≤ j →
                ((truncateAndUpdate l).streamContentHistory.drop
                    (j - (l.streamContentHistory.length - MAX_HISTORY_LENGTH))).take
                    CONTENT_CHUNK_SIZE
                  = (l.streamContentHistory.drop j).take CONTENT_CHUNK_SIZE)
            ∧ (∀ (chunk : List Char) (j : Nat),
                isActualContentMatch (truncateAndUpdate l) chunk j = true →
                  (l.streamContentHistory.drop
                      (j + (l.streamContentHistory.length - MAX_HISTORY_LENGTH))).take
                      CONTENT_CHUNK_SIZE
                    = chunk)) := by
  constructor
  · intro l content hlen
    rcases checkContentLoop_history_cases l content with hsame | hmin
    · rw [hsame]
      exact hlen
    · rw [hmin]
      exact Nat.min_le_right _ _
  · intro l hbig
    have hneg : ¬ l.streamContentHistory.length ≤ MAX_HISTORY_LENGTH := by omega
    have htr : truncateAndUpdate l
        = { l with
            streamContentHistory := l.streamContentHistory.drop
              (l.streamContentHistory.length - MAX_HISTORY_LENGTH)
            lastContentIndex := l.lastContentIndex
              - (l.streamContentHistory.length - MAX_HISTORY_LENGTH)
            contentStats := fun h =>
              (l.contentStats h).filterMap fun j =>
                if l.streamContentHistory.length - MAX_HISTORY_LENGTH ≤ j
                then some (j - (l.streamContentHistory.length - MAX_HISTORY_LENGTH))
                else Option.none } := by
      unfold truncateAndUpdate
      rw [if_neg hneg]
    refine ⟨by rw [htr], ?_, by rw [htr]; intro hsh; rfl, ?_, ?_, ?_⟩
    · rw [htr]
      simp only [List.length_drop]
      omega
    · intro hsh j
      rw [htr]
      show j ∈ (l.contentStats hsh).filterMap _ ↔ _
      rw [List.mem_filterMap]
      constructor
      · rintro ⟨a, ha, hfa⟩
        split at hfa
        · next hle =>
          have : a - (l.streamContentHistory.length - MAX_HISTORY_LENGTH) = j :=
            Option.some.inj hfa
          have ha2 : a = j + (l.streamContentHistory.length - MAX_HISTORY_LENGTH) := by
            omega
          rwa [ha2] at ha
        · exact absurd hfa (by simp)
      · intro hmem
        refine ⟨j + (l.streamContentHistory.length - MAX_HISTORY_LENGTH), hmem, ?_⟩
        rw [if_pos (by omega),
          show j + (l.streamContentHistory.length - MAX_HISTORY_LENGTH)
            - (l.streamContentHistory.length - MAX_HISTORY_LENGTH) = j from by omega]
    · intro j hj
      unfold truncateAndUpdate
      rw [if_neg hneg]
      dsimp only
      rw [List.drop_drop,
        show (l.streamContentHistory.length - MAX_HISTORY_LENGTH)
          + (j - (l.streamContentHistory.length - MAX_HISTORY_LENGTH)) = j
          from by omega]
    · intro chunk j hmatch
      unfold truncateAndUpdate isActualContentMatch at hmatch
      rw [if_neg hneg] at hmatch
      dsimp only at hmatch
      split at hmatch
      · exact absurd hmatch (by simp)
      · have hchunk := of_decide_eq_true hmatch
        rw [List.drop_drop] at hchunk
        rw [show j + (l.streamContentHistory.length - MAX_HISTORY_LENGTH)
            = l.streamContentHistory.length - MAX_HISTORY_LENGTH + j from by omega]
        exact hchunk

set_option maxRecDepth 1000000 in
/-- Witness for C5: the bound is preserved on a concrete call, and on the
concrete oversized state `lBig` (length 1100, truncation amount 100) the
offsets `[50, 99, 100]` for `keyB` become `[0]`. -/
theorem contentWindow_truncation_correct_witness :
    (checkContentLoop newLoopDetectionService "Hi".data).2.streamContentHistory.length
        ≤ MAX_HISTORY_LENGTH
      ∧ (truncateAndUpdate lBig).contentStats keyB = [0]
      ∧ (truncateAndUpdate lBig).streamContentHistory.length = MAX_HISTORY_LENGTH := by
  have hbig : MAX_HISTORY_LENGTH < lBig.streamContentHistory.length := by
    show MAX_HISTORY_LENGTH < (List.replicate 1100 'B').length
    rw [List.length_replicate]
    decide
  have h2 := contentWindow_truncation_correct.2 lBig hbig
  refine ⟨contentWindow_truncation_correct.1 newLoopDetectionService "Hi".data
      (by decide), ?_, h2.2.1⟩
  rw [h2.2.2.1 keyB]
  decide

/-- The embedded float comparison (`total ≤ 675` over `Int`) is exactly the
spec's rational statement `total / (threshold − 1) ≤ 1.5 × CHUNK_SIZE`. -/
theorem totalDistance_bridge (a b : Nat) :
    ((a : Int) - (b : Int)
        ≤ (CONTENT_CHUNK_SIZE : Int) * 3 / 2 * ((CONTENT_LOOP_THRESHOLD : Int) - 1))
      ↔ (((a : ℚ) - (b : ℚ)) / ((CONTENT_LOOP_THRESHOLD : ℚ) - 1)
          ≤ (3 / 2) * (CONTENT_CHUNK_SIZE : ℚ)) := by
  have h1 : ((CONTENT_CHUNK_SIZE : Int) * 3 / 2 * ((CONTENT_LOOP_THRESHOLD : Int) - 1))
      = 675 := by decide
  have h2 : ((CONTENT_LOOP_THRESHOLD : ℚ) - 1) = 9 := by
    norm_num [CONTENT_LOOP_THRESHOLD]
  have h3 : ((3 : ℚ) / 2) * (CONTENT_CHUNK_SIZE : ℚ) = 75 := by
    norm_num [CONTENT_CHUNK_SIZE]
  rw [h1, h2, h3, div_le_iff₀ (by norm_num : (0 : ℚ) < 9),
    show (75 : ℚ) * 9 = 675 from by norm_num]
  constructor
  · intro h
    exact_mod_cast h
  · intro h
    exact_mod_cast h

/-- C1: per-chunk cluster analysis of the content tracker.  With no recorded
occurrence of the chunk's digest nothing is declared; a digest hit that fails
the equality re-verification is not counted; a verified hit whose occurrence
list stays below `CONTENT_LOOP_THRESHOLD = 10` entries never declares a loop;
once the list reaches 10 or more entries, a loop is declared iff the span
between the oldest and newest of the 10 most recent occurrence offsets,
divided by threshold − 1 = 9, is at most 1.5 × CHUNK_SIZE = 75. -/
theorem contentChunk_cluster_threshold (l : LoopDetectionService)
    (chunk : List Char) :
    (l.contentStats (hashChunk chunk) = [] →
        (isLoopDetectedForChunk l chunk (hashChunk chunk)).1 = false)
      ∧ (∀ i0 rest, l.contentStats (hashChunk chunk) = i0 :: rest →
          (isActualContentMatch l chunk i0 = false →
              (isLoopDetectedForChunk l chunk (hashChunk chunk)).1 = false)
            ∧ (isActualContentMatch l chunk i0 = true →
                (((i0 :: rest) ++ [l.lastContentIndex]).length
                      < CONTENT_LOOP_THRESHOLD →
                    (isLoopDetectedForChunk l chunk (hashChunk chunk)).1 = false)
                  ∧ (CONTENT_LOOP_THRESHOLD
                        ≤ ((i0 :: rest) ++ [l.lastContentIndex]).length →
                      ((isLoopDetectedForChunk l chunk (hashChunk chunk)).1 = true
                        ↔ (((recentWindow ((i0 :: rest) ++ [l.lastContentIndex])).getLastD 0 : ℚ)
                              - ((recentWindow ((i0 :: rest) ++ [l.lastContentIndex])).headD 0 : ℚ))
                            / ((CONTENT_LOOP_THRESHOLD : ℚ) - 1)
                            ≤ (3 / 2) * (CONTENT_CHUNK_SIZE : ℚ))))) := by
  constructor
  · intro h
    simp [isLoopDetectedForChunk, h]
  · intro i0 rest h
    constructor
    · intro hm
      simp [isLoopDetectedForChunk, h, hm]
    · intro hm
      constructor
      · intro hlen
        have hlen2 : rest.length + 1 + 1 < CONTENT_LOOP_THRESHOLD := by
          simpa using hlen
        simp [isLoopDetectedForChunk, h, hm, hlen2]
      · intro hlen
        have hlen2 : ¬ (rest.length + 1 + 1 < CONTENT_LOOP_THRESHOLD) := by
          have h9 : CONTENT_LOOP_THRESHOLD ≤ rest.length + 1 + 1 := by
            simpa using hlen
          omega
        have hfst : (isLoopDetectedForChunk l chunk (hashChunk chunk)).1
            = decide
              ((((recentWindow ((i0 :: rest) ++ [l.lastContentIndex])).getLastD 0 : Int)
                  - ((recentWindow ((i0 :: rest) ++ [l.lastContentIndex])).headD 0 : Int))
                ≤ (CONTENT_CHUNK_SIZE : Int) * 3 / 2
                    * ((CONTENT_LOOP_THRESHOLD : Int) - 1)) := by
          simp [isLoopDetectedForChunk, h, hm, hlen2, recentWindow]
        rw [hfst, decide_eq_true_iff]
        exact totalDistance_bridge _ _

/-- Witness for C1: on the concrete state `lC1` (nine verified occurrences
at offsets 0..8, cursor 9, an all-`A` buffer), the tenth occurrence makes the
cluster check fire. -/
theorem contentChunk_cluster_threshold_witness :
    (isLoopDetectedForChunk lC1 chunkC1 (hashChunk chunkC1)).1 = true := by
  have h := (contentChunk_cluster_threshold lC1 chunkC1).2 0
    [1, 2, 3, 4, 5, 6, 7, 8] (by decide)
  have hm : isActualContentMatch lC1 chunkC1 0 = true := by decide
  have h2 := (h.2 hm).2 (by decide)
  refine h2.mpr ?_
  rw [show (recentWindow ((0 :: [1, 2, 3, 4, 5, 6, 7, 8])
        ++ [lC1.lastContentIndex])).getLastD 0 = 9 from by decide,
    show (recentWindow ((0 :: [1, 2, 3, 4, 5, 6, 7, 8])
        ++ [lC1.lastContentIndex])).headD 0 = 0 from by decide]
  norm_num [CONTENT_LOOP_THRESHOLD, CONTENT_CHUNK_SIZE]

/-- With detection disabled, the stream loop is a pure pass-through: every
event is forwarded unchanged (stopping after a terminal error) and the
client state is untouched. -/
theorem streamEvents_disabled (cfg : Config)
    (hdis : cfg.loopDetectionEnabled = false) (promptID : String) :
    ∀ (evs : List StreamEvent) (c : Client),
      streamEvents cfg promptID c evs = (forwardUntilErrorSpec evs, c) := by
  intro evs
  induction evs with
  | nil => intro c; rfl
  | cons e rest ih =>
    intro c
    show streamEvents cfg promptID c (e :: rest) = _
    simp only [streamEvents, forwardUntilErrorSpec, hdis, Bool.false_and,
      Bool.false_eq_true, if_false]
    split
    · rfl
    · rw [ih c]

/-- A list of non-error events passes through `forwardUntilErrorSpec`
unchanged. -/
theorem forwardUntilErrorSpec_no_error :
    ∀ (evs : List StreamEvent), (∀ e ∈ evs, e.etype ≠ EventType.error) →
      forwardUntilErrorSpec evs = evs := by
  intro evs
  induction evs with
  | nil => intro _; rfl
  | cons e rest ih =>
    intro h
    rw [forwardUntilErrorSpec, if_neg (h e (List.mem_cons_self e rest)),
      ih fun x hx => h x (List.mem_cons_of_mem e hx)]

/-- C7 counterexample: with `loopDetectionEnabled = false` and a changed
PromptIdentity, the controller still calls `Reset` on the detector — the
latched sticky flag of `cC7` is wiped by a provider-free call, so the
detector state is *not* left untouched as the claim requires. -/
theorem disabled_detection_counterexample :
    (SendMessageStream { maxSessionTurns := 0, loopDetectionEnabled := false }
        cC7 "b" []).2.loopDetector.loopDetected = false
      ∧ cC7.loopDetector.loopDetected = true := ⟨rfl, rfl⟩

/-- C7 (amended): with `loopDetectionEnabled = false` (and the turn budget
not in play, `maxSessionTurns ≤ 0`), the controller makes no `TurnStarted`
or `AddAndCheck` calls — the detector state is untouched *except* that
`Reset` is still invoked when the PromptIdentity changes — and forwards every
provider event unmodified up to and including a terminal error, so the
controller emits no LoopDetected event even for
`2 × TOOL_CALL_LOOP_THRESHOLD` identical tool calls. -/
theorem disabled_detection_passthrough :
    ∀ (m : Int) (c : Client) (pid : String) (evs : List StreamEvent),
      m ≤ 0 →
      (SendMessageStream { maxSessionTurns := m, loopDetectionEnabled := false }
            c pid evs).1
          = forwardUntilErrorSpec evs
        ∧ (SendMessageStream { maxSessionTurns := m, loopDetectionEnabled := false }
              c pid evs).2.loopDetector
          = (if c.lastPromptID ≠ pid then Reset c.loopDetector pid
              else c.loopDetector)
        ∧ ∀ (tc : ToolCallEvent),
            (SendMessageStream { maxSessionTurns := m, loopDetectionEnabled := false }
                  c pid
                  (List.replicate (2 * TOOL_CALL_LOOP_THRESHOLD)
                    { etype := .toolCall, data := .toolCall tc })).1
              = List.replicate (2 * TOOL_CALL_LOOP_THRESHOLD)
                  { etype := .toolCall, data := .toolCall tc } := by
  intro m c pid evs hm
  have key : ∀ (evs2 : List StreamEvent),
      (SendMessageStream { maxSessionTurns := m, loopDetectionEnabled := false }
            c pid evs2).1
          = forwardUntilErrorSpec evs2
        ∧ (SendMessageStream { maxSessionTurns := m, loopDetectionEnabled := false }
              c pid evs2).2.loopDetector
          = (if c.lastPromptID ≠ pid then Reset c.loopDetector pid
              else c.loopDetector) := by
    intro evs2
    simp only [SendMessageStream]
    rw [if_neg (fun hcon => absurd hcon.1 (by omega))]
    simp only [Bool.false_eq_true, if_false]
    rw [streamEvents_disabled _ rfl pid evs2]
    by_cases hp : c.lastPromptID ≠ pid
    · rw [if_pos hp, if_pos hp]
      exact ⟨rfl, rfl⟩
    · rw [if_neg hp, if_neg hp]
      exact ⟨rfl, rfl⟩
  refine ⟨(key evs).1, (key evs).2, ?_⟩
  intro tc
  rw [(key _).1]
  exact forwardUntilErrorSpec_no_error _ fun e he => by
    rw [List.eq_of_mem_replicate he]
    simp

/-- Witness for amended C7 at a concrete client and provider stream. -/
theorem disabled_detection_passthrough_witness :
    (SendMessageStream { maxSessionTurns := 0, loopDetectionEnabled := false }
          newClient "p" evsC7).1
        = forwardUntilErrorSpec evsC7
      ∧ (SendMessageStream { maxSessionTurns := 0, loopDetectionEnabled := false }
            newClient "p" evsC7).2.loopDetector
        = (if newClient.lastPromptID ≠ "p" then Reset newClient.loopDetector "p"
            else newClient.loopDetector) :=
  ⟨(disabled_detection_passthrough 0 newClient "p" evsC7 (by decide)).1,
    (disabled_detection_passthrough 0 newClient "p" evsC7 (by decide)).2.1⟩

set_option maxRecDepth 100000 in
/-- C6: with `maxSessionTurns = 3` the first three generation calls under
one PromptIdentity forward the provider stream normally; the fourth call
emits exactly one terminal `MaxSessionTurnsEvent` with `currentTurns = 4`
and `maxTurns = 3` whatever the provider would have sent (the provider is
never consumed); a subsequent call under a new PromptIdentity proceeds
normally with the turn count reset, so `currentTurns = 1`; and
`maxSessionTurns = 0` disables the gate entirely, whatever the current turn
count. -/
theorem sessionTurns_budget :
    ((SendMessageStream cfgC6 newClient "prompt-1" evsHello).1 = evsHello
        ∧ (SendMessageStream cfgC6 c6s1 "prompt-1" evsHello).1 = evsHello
        ∧ (SendMessageStream cfgC6 c6s2 "prompt-1" evsHello).1 = evsHello
        ∧ c6s3.sessionTurnCount = 3)
      ∧ (∀ (providerEvents : List StreamEvent),
          SendMessageStream cfgC6 c6s3 "prompt-1" providerEvents
            = ([newMaxSessionTurnsEvent 4 3 "prompt-1"], c6s4))
      ∧ ((SendMessageStream cfgC6 c6s4 "prompt-2" evsHello).1 = evsHello
          ∧ (SendMessageStream cfgC6 c6s4 "prompt-2" evsHello).2.sessionTurnCount = 1)
      ∧ (∀ (c : Client) (pid : String),
          (SendMessageStream { maxSessionTurns := 0, loopDetectionEnabled := false }
              c pid []).1 = []) := by
  refine ⟨⟨rfl, rfl, rfl, rfl⟩, fun providerEvents => rfl, ⟨rfl, rfl⟩, ?_⟩
  intro c pid
  simp only [SendMessageStream]
  rw [if_neg (fun hcon => absurd hcon.1 (by decide))]
  rfl

/-- Witness for amended C8: on a state with a different stored key, the
unserializable call starts a fresh streak of 1. -/
theorem unserializable_args_still_counted_witness :
    getToolCallKey tcBad = "t" ++ ":" ++ ""
      ∧ ((checkToolCallLoop lC8b tcBad).2.toolCallRepetitionCount
          = if lC8b.lastToolCallKey = getToolCallKey tcBad
            then lC8b.toolCallRepetitionCount + 1 else 1)
      ∧ ((checkToolCallLoop lC8b tcBad).1
          = decide ((checkToolCallLoop lC8b tcBad).2.toolCallRepetitionCount
              ≥ TOOL_CALL_LOOP_THRESHOLD)) :=
  unserializable_args_still_counted lC8b tcBad rfl

end Gomini
